import Mathlib

/-!
Shallow embedding of `src/apple/ios_deploy/device_list.rs` from the
`cargo-mobile` repository: iOS device detection via the external
`ios-deploy` utility.  The file models the two functions of that module,
`parse_device_list` and `device_list`, together with the data they consume.
Collaborator types that live outside the module (the event decoder's
`Event`/`DeviceInfo`, the platform registry `Target`, the output record
`Device`, the environment handle `Env`, and the process-execution
primitive's output/error types) are modelled from the specification, as
marked on each definition.
-/

namespace CargoMobile

/-- Modelled from the spec: a device announcement produced by the external
event decoder; four raw string fields, no identity beyond field equality. -/
structure DeviceInfo where
  device_identifier : String
  device_name : String
  model_arch : String
  model_name : String
deriving DecidableEq

/-- Modelled from the spec: a structured event from the external event
decoder.  Events are polymorphic over the capability "extract an optional
device announcement"; all other event kinds are opaque to this component. -/
inductive Event where
  | deviceDetected (info : DeviceInfo)
  | other (description : String)
deriving DecidableEq

/-- Modelled from the spec: extract the optional device announcement from
an event (the `Event::device_info` accessor used by `parse_device_list`). -/
def Event.device_info : Event → Option DeviceInfo
  | .deviceDetected info => some info
  | .other _ => none

/-- Modelled from the spec: an opaque platform descriptor obtained only
through a lookup keyed by a raw architecture string. -/
structure Target where
  arch : String
deriving DecidableEq

/-- Modelled from the spec: the platform registry, a static table mapping
architecture strings to platform descriptors; lookup either yields exactly
one descriptor or fails (unknown architecture). -/
def Target.for_arch (arch : String) : Option Target :=
  if arch = ("arm64") ∨ arch = ("armv7") ∨ arch = ("armv7s") ∨ arch = ("x86_64") then
    some ⟨arch⟩
  else
    none

/-- Modelled from the spec: the output entity `Device` — identifier, name,
model name and validated platform; immutable once created. -/
structure Device where
  device_identifier : String
  device_name : String
  model_name : String
  target : Target
deriving DecidableEq

/-- Modelled from the spec: the `Device::new` constructor, with the
argument order used at the call site in `parse_device_list`. -/
def Device.new (device_identifier device_name model_name : String) (target : Target) : Device :=
  ⟨device_identifier, device_name, model_name, target⟩

/-- Modelled from the spec: the total deterministic ordering key of a
device record — lexicographic over all fields (identifier first, then the
other fields as tie-breakers), as required for the ordered-set collection. -/
def Device.key (d : Device) : String ×ₗ String ×ₗ String ×ₗ String :=
  toLex (d.device_identifier, toLex (d.device_name, toLex (d.model_name, d.target.arch)))

instance : LinearOrder Device :=
  LinearOrder.lift' Device.key (by
    intro a b h
    obtain ⟨a1, a2, a3, ⟨a4⟩⟩ := a
    obtain ⟨b1, b2, b3, ⟨b4⟩⟩ := b
    simp only [Device.key, toLex_inj, Prod.mk.injEq] at h
    obtain ⟨h1, h2, h3, h4⟩ := h
    subst h1; subst h2; subst h3; subst h4
    rfl)

/-- Modelled from the Rust standard library's UTF-8 validity error
(`std::str::Utf8Error`): records how many leading bytes were valid. -/
structure Utf8Error where
  valid_up_to : Nat
deriving DecidableEq

/-- Modelled from the Rust standard library's `std::str::from_utf8`, as
used by the process-execution primitive to decode captured standard-out:
decodes a byte sequence as UTF-8, failing at the first invalid sequence. -/
def utf8DecodeAux : List Nat → Nat → List Char → Except Utf8Error (List Char)
  | [], _, acc => .ok acc.reverse
  | b :: rest, pos, acc =>
    if b < 0x80 then
      utf8DecodeAux rest (pos + 1) (Char.ofNat b :: acc)
    else if 0xC2 ≤ b ∧ b ≤ 0xDF then
      match rest with
      | b1 :: rest1 =>
        if 0x80 ≤ b1 ∧ b1 ≤ 0xBF then
          utf8DecodeAux rest1 (pos + 2) (Char.ofNat ((b - 0xC0) * 64 + (b1 - 0x80)) :: acc)
        else .error ⟨pos⟩
      | _ => .error ⟨pos⟩
    else if 0xE0 ≤ b ∧ b ≤ 0xEF then
      match rest with
      | b1 :: b2 :: rest2 =>
        if (if b = 0xE0 then 0xA0 ≤ b1 ∧ b1 ≤ 0xBF
            else if b = 0xED then 0x80 ≤ b1 ∧ b1 ≤ 0x9F
            else 0x80 ≤ b1 ∧ b1 ≤ 0xBF) ∧ (0x80 ≤ b2 ∧ b2 ≤ 0xBF) then
          utf8DecodeAux rest2 (pos + 3)
            (Char.ofNat ((b - 0xE0) * 4096 + (b1 - 0x80) * 64 + (b2 - 0x80)) :: acc)
        else .error ⟨pos⟩
      | _ => .error ⟨pos⟩
    else if 0xF0 ≤ b ∧ b ≤ 0xF4 then
      match rest with
      | b1 :: b2 :: b3 :: rest3 =>
        if (if b = 0xF0 then 0x90 ≤ b1 ∧ b1 ≤ 0xBF
            else if b = 0xF4 then 0x80 ≤ b1 ∧ b1 ≤ 0x8F
            else 0x80 ≤ b1 ∧ b1 ≤ 0xBF) ∧ (0x80 ≤ b2 ∧ b2 ≤ 0xBF) ∧ (0x80 ≤ b3 ∧ b3 ≤ 0xBF) then
          utf8DecodeAux rest3 (pos + 4)
            (Char.ofNat ((b - 0xF0) * 262144 + (b1 - 0x80) * 4096 + (b2 - 0x80) * 64
              + (b3 - 0x80)) :: acc)
        else .error ⟨pos⟩
      | _ => .error ⟨pos⟩
    else .error ⟨pos⟩

/-- Modelled from the Rust standard library: decode captured bytes to a
string, or report the UTF-8 error (`bossy::Output::stdout_str`). -/
def utf8Decode (bs : List Nat) : Except Utf8Error String :=
  (utf8DecodeAux bs 0 []).map fun cs => String.mk cs

/-- Modelled from the spec: the captured output of the process-execution
primitive, carrying separate byte streams for standard-out and
standard-error (`bossy::Output`). -/
structure Output where
  stdout : List Nat
  stderr : List Nat
deriving DecidableEq

/-- Modelled from the spec: the process-execution primitive's error on a
failed invocation (`bossy::Error`); captured output may or may not be
present. -/
structure BossyError where
  output : Option Output
deriving DecidableEq

/-- The error taxonomy of `device_list.rs` (`DeviceListError`). -/
inductive DeviceListError where
  | DetectionFailed (err : BossyError)
  | InvalidUtf8 (err : Utf8Error)
  | ArchInvalid (arch : String)
deriving DecidableEq

/-- Insertion into the ordered set collection (`BTreeSet<Device>`): keep
the list strictly sorted; an element already present is not re-inserted. -/
def insertDevice (d : Device) : List Device → List Device
  | [] => [d]
  | e :: rest =>
    if d < e then d :: e :: rest
    else if d = e then e :: rest
    else e :: insertDevice d rest

/-- The per-announcement mapping step of `parse_device_list`: resolve the
raw architecture against the platform registry; a hit constructs a
`Device`, a miss fails the call with `ArchInvalid(model_arch)`. -/
def mapAnnouncement (info : DeviceInfo) : Except DeviceListError Device :=
  match Target.for_arch info.model_arch with
  | some target =>
    .ok (Device.new info.device_identifier info.device_name info.model_name target)
  | none => .error (DeviceListError.ArchInvalid info.model_arch)

/-- The `collect::<Result<BTreeSet<_>, _>>()` step of `parse_device_list`:
insert each mapped announcement into the ordered set, short-circuiting on
the first mapping error. -/
def collectIntoSet : List DeviceInfo → List Device → Except DeviceListError (List Device)
  | [], acc => .ok acc
  | info :: rest, acc =>
    match mapAnnouncement info with
    | .ok d => collectIntoSet rest (insertDevice d acc)
    | .error e => .error e

/-- The `flat_map(|event| event.device_info().cloned())` step: the device
announcements of an event sequence, in event order, skipping events that
are not device announcements. -/
def announcements (events : List Event) : List DeviceInfo :=
  events.filterMap Event.device_info

/-- The event-level pipeline of `parse_device_list`: announcements mapped
through the registry and collected into the ordered device set. -/
def parse_device_events (events : List Event) : Except DeviceListError (List Device) :=
  collectIntoSet (announcements events) []

/-- `parse_device_list` of `device_list.rs`: decode captured standard-out
as UTF-8 (failing with `InvalidUtf8`), split into events with the external
event decoder `parse_list`, and run the announcement pipeline. -/
def parse_device_list (parse_list : String → List Event) (output : Output) :
    Except DeviceListError (List Device) :=
  match utf8Decode output.stdout with
  | .error err => .error (DeviceListError.InvalidUtf8 err)
  | .ok s => parse_device_events (parse_list s)

/-- Modelled from the spec: the environment-resolution handle; its
`explicit_env` is the explicit allow-listed variable mapping forwarded to
the child process. -/
structure Env where
  vars : List (String × String)

/-- Modelled from the spec: resolve the explicit environment mapping
(`ExplicitEnv::explicit_env`). -/
def Env.explicit_env (env : Env) : List (String × String) :=
  env.vars

/-- Split a character sequence on spaces, keeping empty pieces, matching
the naive whitespace tokenization of `bossy::Command::pure_parse`. -/
def splitSpaceAux : List Char → List Char → List (List Char)
  | [], cur => [cur.reverse]
  | c :: rest, cur =>
    if c = ' ' then cur.reverse :: splitSpaceAux rest []
    else splitSpaceAux rest (c :: cur)

/-- Modelled from the process-execution primitive
(`bossy::Command::pure_parse`): split a command string on whitespace into
a program name and its arguments. -/
def pure_parse (s : String) : String × List String :=
  match (splitSpaceAux s.toList []).map (fun cs => String.mk cs) with
  | [] => (String.mk [], [])
  | p :: args => (p, args)

/-- The exact command string passed to `bossy::Command::pure_parse` by
`device_list`. -/
def device_list_command : String :=
  "ios-deploy --detect --timeout 1 --json --no-wifi"

/-- The shape of one child-process invocation: program, arguments, and the
full environment mapping handed to the child. -/
structure Invocation where
  program : String
  args : List String
  env_vars : List (String × String)
deriving DecidableEq

/-- The invocation `device_list` constructs: the fixed command string,
parsed, with exactly the explicit environment of the handle
(`.with_env_vars(env.explicit_env())`). -/
def device_list_invocation (env : Env) : Invocation :=
  { program := (pure_parse device_list_command).1
    args := (pure_parse device_list_command).2
    env_vars := env.explicit_env }

/-- Modelled from the spec: the invocation outcome returned by
`run_and_wait_for_output` — either a completed run with captured output,
or a process error. -/
inductive RunResult where
  | ok (output : Output)
  | err (e : BossyError)
deriving DecidableEq

/-- The outcome classification of `device_list`, as a function of the
invocation outcome.  `none` models the `.expect(...)` panic taken when a
failed invocation carries no captured output; `some r` is the value the
function returns. -/
def device_list (parse_list : String → List Event) (result : RunResult) :
    Option (Except DeviceListError (List Device)) :=
  match result with
  | .ok output => some (parse_device_list parse_list output)
  | .err e =>
    match e.output with
    | none => none
    | some output =>
      if output.stdout.isEmpty && output.stderr.isEmpty then
        some (.ok [])
      else
        some (.error (DeviceListError.DetectionFailed e))

/-- Registry goodness of an announcement: its architecture resolves. -/
def archOk (info : DeviceInfo) : Bool :=
  (Target.for_arch info.model_arch).isSome

/-- The device built from a registry-recognized announcement. -/
def devOf (info : DeviceInfo) : Device :=
  Device.new info.device_identifier info.device_name info.model_name ⟨info.model_arch⟩

/-- The ordered device set built from a list of announcements, starting
from an accumulator. -/
def deviceSetOf (infos : List DeviceInfo) (acc : List Device) : List Device :=
  infos.foldl (fun s i => insertDevice (devOf i) s) acc

/-! Helper lemmas about the registry, the mapping step, and the ordered
set. -/

theorem for_arch_isSome {a : String} (h : (Target.for_arch a).isSome = true) :
    Target.for_arch a = some ⟨a⟩ := by
  by_cases hc : a = ("arm64") ∨ a = ("armv7") ∨ a = ("armv7s") ∨ a = ("x86_64")
  · simp [Target.for_arch, hc]
  · simp [Target.for_arch, hc] at h

theorem mapAnnouncement_good (info : DeviceInfo) (h : archOk info = true) :
    mapAnnouncement info = Except.ok (devOf info) := by
  have hfa : Target.for_arch info.model_arch = some ⟨info.model_arch⟩ :=
    for_arch_isSome (by simpa [archOk] using h)
  simp [mapAnnouncement, hfa, devOf]

theorem mapAnnouncement_bad (info : DeviceInfo) (h : archOk info = false) :
    mapAnnouncement info = Except.error (DeviceListError.ArchInvalid info.model_arch) := by
  cases hfa : Target.for_arch info.model_arch with
  | none => simp [mapAnnouncement, hfa]
  | some t => simp [archOk, hfa] at h

theorem good_of_mapAnnouncement_ok {info : DeviceInfo} {d : Device}
    (h : mapAnnouncement info = Except.ok d) : archOk info = true := by
  cases hfa : Target.for_arch info.model_arch with
  | none => simp [mapAnnouncement, hfa] at h
  | some t => simp [archOk, hfa]

theorem mem_insertDevice (x d : Device) (l : List Device) :
    x ∈ insertDevice d l ↔ x = d ∨ x ∈ l := by
  induction l with
  | nil => simp [insertDevice]
  | cons e rest ih =>
    rw [insertDevice]
    by_cases h1 : d < e
    · rw [if_pos h1]
      simp [List.mem_cons]
    · rw [if_neg h1]
      by_cases h2 : d = e
      · rw [if_pos h2]
        subst h2
        simp only [List.mem_cons]
        tauto
      · rw [if_neg h2]
        simp only [List.mem_cons, ih]
        tauto

theorem sorted_insertDevice (d : Device) (l : List Device)
    (hs : List.Sorted (· < ·) l) : List.Sorted (· < ·) (insertDevice d l) := by
  induction l with
  | nil => simp [insertDevice]
  | cons e rest ih =>
    rw [List.sorted_cons] at hs
    obtain ⟨he, hrest⟩ := hs
    by_cases h1 : d < e
    · rw [insertDevice, if_pos h1, List.sorted_cons]
      refine ⟨?_, List.sorted_cons.mpr ⟨he, hrest⟩⟩
      intro b hb
      rcases List.mem_cons.mp hb with rfl | hb
      · exact h1
      · exact h1.trans (he b hb)
    · by_cases h2 : d = e
      · rw [insertDevice, if_neg h1, if_pos h2]
        exact List.sorted_cons.mpr ⟨he, hrest⟩
      · rw [insertDevice, if_neg h1, if_neg h2, List.sorted_cons]
        have hed : e < d :=
          lt_of_le_of_ne (le_of_not_lt h1) fun heq => h2 heq.symm
        refine ⟨?_, ih hrest⟩
        intro b hb
        rcases (mem_insertDevice b d rest).mp hb with rfl | hb
        · exact hed
        · exact he b hb

theorem mem_deviceSetOf (x : Device) (infos : List DeviceInfo) (acc : List Device) :
    x ∈ deviceSetOf infos acc ↔ x ∈ acc ∨ ∃ i ∈ infos, x = devOf i := by
  induction infos generalizing acc with
  | nil => simp [deviceSetOf]
  | cons i rest ih =>
    show x ∈ deviceSetOf rest (insertDevice (devOf i) acc) ↔ _
    rw [ih, mem_insertDevice]
    simp only [List.mem_cons]
    constructor
    · rintro ((rfl | hx) | ⟨i', hi', rfl⟩)
      · exact Or.inr ⟨i, Or.inl rfl, rfl⟩
      · exact Or.inl hx
      · exact Or.inr ⟨i', Or.inr hi', rfl⟩
    · rintro (hx | ⟨i', (rfl | hi'), rfl⟩)
      · exact Or.inl (Or.inr hx)
      · exact Or.inl (Or.inl rfl)
      · exact Or.inr ⟨i', hi', rfl⟩

theorem sorted_deviceSetOf (infos : List DeviceInfo) (acc : List Device)
    (hs : List.Sorted (· < ·) acc) : List.Sorted (· < ·) (deviceSetOf infos acc) := by
  induction infos generalizing acc with
  | nil => exact hs
  | cons i rest ih => exact ih _ (sorted_insertDevice _ _ hs)

theorem collect_eq_ok (infos : List DeviceInfo) (acc : List Device)
    (hgood : ∀ i ∈ infos, archOk i = true) :
    collectIntoSet infos acc = Except.ok (deviceSetOf infos acc) := by
  induction infos generalizing acc with
  | nil => rfl
  | cons i rest ih =>
    rw [collectIntoSet, mapAnnouncement_good i (hgood i (List.mem_cons_self i rest))]
    exact ih _ fun i' hi' => hgood i' (List.mem_cons_of_mem i hi')

theorem collect_ok_good {infos : List DeviceInfo} {acc ds : List Device}
    (h : collectIntoSet infos acc = Except.ok ds) : ∀ i ∈ infos, archOk i = true := by
  induction infos generalizing acc with
  | nil => simp
  | cons i rest ih =>
    rw [collectIntoSet] at h
    cases hm : mapAnnouncement i with
    | error e => rw [hm] at h; exact absurd h (by simp)
    | ok d =>
      rw [hm] at h
      intro i' hi'
      rcases List.mem_cons.mp hi' with rfl | hi'
      · exact good_of_mapAnnouncement_ok hm
      · exact ih h i' hi'

theorem collect_ok_sorted {infos : List DeviceInfo} {acc ds : List Device}
    (h : collectIntoSet infos acc = Except.ok ds)
    (hs : List.Sorted (· < ·) acc) : List.Sorted (· < ·) ds := by
  induction infos generalizing acc with
  | nil =>
    rw [collectIntoSet] at h
    cases h
    exact hs
  | cons i rest ih =>
    rw [collectIntoSet] at h
    cases hm : mapAnnouncement i with
    | error e => rw [hm] at h; exact absurd h (by simp)
    | ok d =>
      rw [hm] at h
      exact ih h (sorted_insertDevice _ _ hs)

theorem collect_err_first {infos : List DeviceInfo} {j : DeviceInfo} (acc : List Device)
    (hfind : infos.find? (fun i => !archOk i) = some j) :
    collectIntoSet infos acc = Except.error (DeviceListError.ArchInvalid j.model_arch) := by
  induction infos generalizing acc with
  | nil => simp at hfind
  | cons i rest ih =>
    by_cases hb : archOk i = true
    · rw [List.find?_cons_of_neg _ (by simp [hb])] at hfind
      rw [collectIntoSet, mapAnnouncement_good i hb]
      exact ih _ hfind
    · have hb' : archOk i = false := by
        cases hx : archOk i
        · rfl
        · exact absurd hx hb
      rw [List.find?_cons_of_pos _ (by simp [hb'])] at hfind
      have hij : i = j := Option.some.inj hfind
      subst hij
      rw [collectIntoSet, mapAnnouncement_bad i hb']

theorem devOf_injective : Function.Injective devOf := by
  intro a b h
  obtain ⟨a1, a2, a3, a4⟩ := a
  obtain ⟨b1, b2, b3, b4⟩ := b
  simp only [devOf, Device.new, Device.mk.injEq, Target.mk.injEq] at h
  obtain ⟨h1, h2, h3, h4⟩ := h
  subst h1; subst h2; subst h3; subst h4
  rfl

theorem sorted_eq_of_mem_iff {l₁ l₂ : List Device}
    (h₁ : List.Sorted (· < ·) l₁) (h₂ : List.Sorted (· < ·) l₂)
    (hm : ∀ x, x ∈ l₁ ↔ x ∈ l₂) : l₁ = l₂ := by
  haveI : IsAntisymm Device (· < ·) := ⟨fun a b hab hba => absurd hba (lt_asymm hab)⟩
  exact List.eq_of_perm_of_sorted
    ((List.perm_ext_iff_of_nodup h₁.nodup h₂.nodup).mpr hm) h₁ h₂

theorem length_deviceSetOf_nil (infos : List DeviceInfo) :
    (deviceSetOf infos []).length = infos.dedup.length := by
  have hs : List.Sorted (· < ·) (deviceSetOf infos []) :=
    sorted_deviceSetOf infos [] (List.sorted_nil)
  have hnd : (deviceSetOf infos []).Nodup := hs.nodup
  have hset : (deviceSetOf infos []).toFinset = infos.toFinset.image devOf := by
    ext x
    simp only [List.mem_toFinset, Finset.mem_image, mem_deviceSetOf, List.not_mem_nil,
      false_or]
    constructor
    · rintro ⟨i, hi, rfl⟩
      exact ⟨i, hi, rfl⟩
    · rintro ⟨i, hi, rfl⟩
      exact ⟨i, hi, rfl⟩
  calc (deviceSetOf infos []).length
      = (deviceSetOf infos []).dedup.length := by rw [hnd.dedup]
    _ = (deviceSetOf infos []).toFinset.card := (List.card_toFinset _).symm
    _ = (infos.toFinset.image devOf).card := by rw [hset]
    _ = infos.toFinset.card := Finset.card_image_of_injective _ devOf_injective
    _ = infos.dedup.length := List.card_toFinset _

/-! Claim theorems. -/

/-- C1: for every captured output whose standard-out decodes to a text in
which some device-announcement event's architecture string has no entry in
the platform registry, `parse_device_list` fails with `ArchInvalid`
carrying exactly such a raw architecture string, and no collection is
returned; moreover, whenever the call succeeds, the returned collection
never contains a record whose platform lookup failed (all-or-nothing). -/
theorem C1_archInvalid_all_or_nothing (parse_list : String → List Event) (output : Output)
    (s : String) (hdec : utf8Decode output.stdout = Except.ok s) :
    ((∃ info ∈ announcements (parse_list s), Target.for_arch info.model_arch = none) →
      ∃ a, (∃ info ∈ announcements (parse_list s),
              info.model_arch = a ∧ Target.for_arch a = none) ∧
        parse_device_list parse_list output =
          Except.error (DeviceListError.ArchInvalid a)) ∧
    (∀ ds, parse_device_list parse_list output = Except.ok ds →
      ∀ d ∈ ds, Target.for_arch d.target.arch = some d.target) := by
  have hpl : parse_device_list parse_list output = parse_device_events (parse_list s) := by
    rw [parse_device_list, hdec]
  constructor
  · rintro ⟨info, hmem, hnone⟩
    have hsome : ((announcements (parse_list s)).find? (fun i => !archOk i)).isSome := by
      rw [List.find?_isSome]
      exact ⟨info, hmem, by simp [archOk, hnone]⟩
    obtain ⟨j, hj⟩ := Option.isSome_iff_exists.mp hsome
    have hjbad : Target.for_arch j.model_arch = none := by
      have hpj : archOk j = false := by simpa using List.find?_some hj
      cases hfa : Target.for_arch j.model_arch with
      | none => rfl
      | some t => rw [archOk, hfa] at hpj; simp at hpj
    refine ⟨j.model_arch, ⟨j, List.mem_of_find?_eq_some hj, rfl, hjbad⟩, ?_⟩
    rw [hpl, parse_device_events]
    exact collect_err_first [] hj
  · intro ds hds d hd
    rw [hpl, parse_device_events] at hds
    have hgood := collect_ok_good hds
    rw [collect_eq_ok _ _ hgood] at hds
    have hds' : ds = deviceSetOf (announcements (parse_list s)) [] :=
      (Except.ok.inj hds).symm
    subst hds'
    obtain ⟨i, hi, rfl⟩ :=
      ((mem_deviceSetOf d _ []).mp hd).resolve_left (by simp)
    have : Target.for_arch i.model_arch = some ⟨i.model_arch⟩ :=
      for_arch_isSome (by simpa [archOk] using hgood i hi)
    simpa [devOf, Device.new] using this

/-- C1 witness: a single announcement with the unrecognized architecture
string shows the hypotheses of `C1_archInvalid_all_or_nothing` are
satisfiable at a concrete input. -/
theorem C1_archInvalid_all_or_nothing_witness :
    utf8Decode (Output.mk [] []).stdout = Except.ok ("") ∧
    (((∃ info ∈ announcements
          ((fun _ => [Event.deviceDetected ⟨"A1", "N", "mips-unsupported", "M"⟩]) ("")),
        Target.for_arch info.model_arch = none) →
      ∃ a, (∃ info ∈ announcements
              ((fun _ => [Event.deviceDetected ⟨"A1", "N", "mips-unsupported", "M"⟩]) ("")),
              info.model_arch = a ∧ Target.for_arch a = none) ∧
        parse_device_list (fun _ => [Event.deviceDetected ⟨"A1", "N", "mips-unsupported", "M"⟩])
            (Output.mk [] []) =
          Except.error (DeviceListError.ArchInvalid a)) ∧
    (∀ ds, parse_device_list
          (fun _ => [Event.deviceDetected ⟨"A1", "N", "mips-unsupported", "M"⟩])
          (Output.mk [] []) = Except.ok ds →
      ∀ d ∈ ds, Target.for_arch d.target.arch = some d.target)) :=
  ⟨rfl, C1_archInvalid_all_or_nothing
    (fun _ => [Event.deviceDetected ⟨"A1", "N", "mips-unsupported", "M"⟩])
    (Output.mk [] []) ("") rfl⟩

/-- C2: for a failed invocation whose captured standard-out and
standard-error are both empty, `device_list` returns `Ok` with the empty
collection (no error is surfaced). -/
theorem C2_benign_empty_failure (parse_list : String → List Event) (e : BossyError)
    (output : Output) (hout : e.output = some output)
    (h1 : output.stdout = []) (h2 : output.stderr = []) :
    device_list parse_list (RunResult.err e) = some (Except.ok []) := by
  simp [device_list, hout, h1, h2]

/-- C2 witness: the benign-empty branch at a concrete failed invocation. -/
theorem C2_benign_empty_failure_witness :
    device_list (fun _ => []) (RunResult.err ⟨some ⟨[], []⟩⟩) = some (Except.ok []) :=
  C2_benign_empty_failure (fun _ => []) ⟨some ⟨[], []⟩⟩ ⟨[], []⟩ rfl rfl rfl

/-- C3: when every device announcement's architecture is recognized by the
registry, `parse_device_list`'s event pipeline succeeds with a collection
whose size is the number of distinct (by full field set) announcements;
the result is unchanged under any reordering of the announcements and any
interleaving with non-device events (which are skipped), and
field-identical duplicates collapse to one record. -/
theorem C3_distinct_count_order_independent (events : List Event)
    (hgood : ∀ info ∈ announcements events, archOk info = true) :
    ∃ ds, parse_device_events events = Except.ok ds ∧
      ds.length = (announcements events).dedup.length ∧
      ∀ events2, List.Perm (announcements events2) (announcements events) →
        parse_device_events events2 = Except.ok ds := by
  refine ⟨deviceSetOf (announcements events) [], ?_, ?_, ?_⟩
  · rw [parse_device_events]
    exact collect_eq_ok _ _ hgood
  · exact length_deviceSetOf_nil _
  · intro events2 hperm
    have hgood2 : ∀ info ∈ announcements events2, archOk info = true :=
      fun info hm => hgood info (hperm.subset hm)
    rw [parse_device_events, collect_eq_ok _ _ hgood2]
    congr 1
    refine sorted_eq_of_mem_iff (sorted_deviceSetOf _ _ List.sorted_nil)
      (sorted_deviceSetOf _ _ List.sorted_nil) fun x => ?_
    rw [mem_deviceSetOf, mem_deviceSetOf]
    simp only [List.not_mem_nil, false_or]
    constructor
    · rintro ⟨i, hi, rfl⟩
      exact ⟨i, hperm.subset hi, rfl⟩
    · rintro ⟨i, hi, rfl⟩
      exact ⟨i, (hperm.mem_iff).mpr hi, rfl⟩

/-- C3 witness: two field-identical announcements plus one non-device
event — the hypotheses hold and the theorem applies at this input. -/
theorem C3_distinct_count_order_independent_witness :
    (∀ info ∈ announcements
        [Event.deviceDetected ⟨"A1", "Phone", "arm64", "M1"⟩, Event.other ("status"),
         Event.deviceDetected ⟨"A1", "Phone", "arm64", "M1"⟩], archOk info = true) ∧
    (∃ ds, parse_device_events
        [Event.deviceDetected ⟨"A1", "Phone", "arm64", "M1"⟩, Event.other ("status"),
         Event.deviceDetected ⟨"A1", "Phone", "arm64", "M1"⟩] = Except.ok ds ∧
      ds.length = (announcements
        [Event.deviceDetected ⟨"A1", "Phone", "arm64", "M1"⟩, Event.other ("status"),
         Event.deviceDetected ⟨"A1", "Phone", "arm64", "M1"⟩]).dedup.length ∧
      ∀ events2, List.Perm (announcements events2) (announcements
          [Event.deviceDetected ⟨"A1", "Phone", "arm64", "M1"⟩, Event.other ("status"),
           Event.deviceDetected ⟨"A1", "Phone", "arm64", "M1"⟩]) →
        parse_device_events events2 = Except.ok ds) :=
  ⟨by decide, C3_distinct_count_order_independent
    [Event.deviceDetected ⟨"A1", "Phone", "arm64", "M1"⟩, Event.other ("status"),
     Event.deviceDetected ⟨"A1", "Phone", "arm64", "M1"⟩] (by decide)⟩

/-- C4: for a failed invocation where at least one captured stream is
non-empty, `device_list` returns the `DetectionFailed` error carrying the
underlying process error. -/
theorem C4_nonempty_failure_detection_failed (parse_list : String → List Event)
    (e : BossyError) (output : Output) (hout : e.output = some output)
    (hne : output.stdout ≠ [] ∨ output.stderr ≠ []) :
    device_list parse_list (RunResult.err e) =
      some (Except.error (DeviceListError.DetectionFailed e)) := by
  have hb : (output.stdout.isEmpty && output.stderr.isEmpty) = false := by
    rcases hne with h | h
    · cases hs : output.stdout with
      | nil => exact absurd hs h
      | cons a t => simp [hs]
    · cases hs : output.stderr with
      | nil => exact absurd hs h
      | cons a t => simp [hs]
  simp [device_list, hout, hb]

/-- C4 witness: a failed invocation with non-empty standard-error. -/
theorem C4_nonempty_failure_detection_failed_witness :
    device_list (fun _ => []) (RunResult.err ⟨some ⟨[], [72]⟩⟩) =
      some (Except.error (DeviceListError.DetectionFailed ⟨some ⟨[], [72]⟩⟩)) :=
  C4_nonempty_failure_detection_failed (fun _ => []) ⟨some ⟨[], [72]⟩⟩ ⟨[], [72]⟩ rfl
    (Or.inr (by decide))

/-- C5: for a completed invocation whose captured standard-out bytes are
not valid UTF-8, the call fails with `InvalidUtf8` carrying the underlying
decode error, and no collection (not even a partial one) is produced. -/
theorem C5_invalid_utf8_fatal (parse_list : String → List Event) (output : Output)
    (e : Utf8Error) (hdec : utf8Decode output.stdout = Except.error e) :
    device_list parse_list (RunResult.ok output) =
      some (Except.error (DeviceListError.InvalidUtf8 e)) ∧
    parse_device_list parse_list output = Except.error (DeviceListError.InvalidUtf8 e) := by
  have h2 : parse_device_list parse_list output =
      Except.error (DeviceListError.InvalidUtf8 e) := by
    rw [parse_device_list, hdec]
  exact ⟨by rw [device_list, h2], h2⟩

/-- C5 witness: the lone byte 0xFF is not valid UTF-8 and yields
`InvalidUtf8` at decode position 0. -/
theorem C5_invalid_utf8_fatal_witness :
    utf8Decode (Output.mk [255] []).stdout = Except.error ⟨0⟩ ∧
    (device_list (fun _ => []) (RunResult.ok (Output.mk [255] [])) =
      some (Except.error (DeviceListError.InvalidUtf8 ⟨0⟩)) ∧
    parse_device_list (fun _ => []) (Output.mk [255] []) =
      Except.error (DeviceListError.InvalidUtf8 ⟨0⟩)) :=
  ⟨rfl, C5_invalid_utf8_fatal (fun _ => []) (Output.mk [255] []) ⟨0⟩ rfl⟩

/-- C6: parsing is deterministic — byte-identical captured outputs parse
to equal results, and any successfully returned collection is iterated in
the one stable (strictly sorted) order. -/
theorem C6_parse_deterministic_stable_order (parse_list : String → List Event)
    (o₁ o₂ : Output) (h : o₁ = o₂) :
    parse_device_list parse_list o₁ = parse_device_list parse_list o₂ ∧
    ∀ ds, parse_device_list parse_list o₁ = Except.ok ds →
      List.Sorted (· < ·) ds := by
  subst h
  refine ⟨rfl, fun ds hds => ?_⟩
  cases hdec : utf8Decode o₁.stdout with
  | error e => simp [parse_device_list, hdec] at hds
  | ok s =>
    simp only [parse_device_list, hdec, parse_device_events] at hds
    exact collect_ok_sorted hds List.sorted_nil

/-- C6 witness: the determinism theorem applied to a concrete captured
output, its identity hypothesis discharged by reflexivity. -/
theorem C6_parse_deterministic_stable_order_witness :
    Output.mk [65] [] = Output.mk [65] [] ∧
    (parse_device_list (fun _ => []) (Output.mk [65] []) =
        parse_device_list (fun _ => []) (Output.mk [65] []) ∧
      ∀ ds, parse_device_list (fun _ => []) (Output.mk [65] []) = Except.ok ds →
        List.Sorted (· < ·) ds) :=
  ⟨rfl, C6_parse_deterministic_stable_order (fun _ => []) (Output.mk [65] [])
    (Output.mk [65] []) rfl⟩

/-- C7: `device_list` invokes the external utility with the fixed command
line `ios-deploy --detect --timeout 1 --json --no-wifi`, and the
environment passed to the child is exactly the explicit mapping resolved
by the environment handle, never the ambient environment. -/
theorem C7_fixed_command_explicit_env (env : Env) :
    device_list_invocation env =
      { program := "ios-deploy"
        args := ["--detect", "--timeout", "1", "--json", "--no-wifi"]
        env_vars := env.explicit_env } :=
  rfl

/-- C8: a failed invocation whose process error carries no captured output
makes `device_list` abort (modelled as `none`) rather than return any
`DeviceListError`; under the precondition that output is always captured
on failure, the abort branch is unreachable. -/
theorem C8_missing_output_abort (parse_list : String → List Event) (e : BossyError) :
    (e.output = none → device_list parse_list (RunResult.err e) = none) ∧
    (∀ output, e.output = some output →
      (device_list parse_list (RunResult.err e)).isSome = true) := by
  constructor
  · intro h
    simp [device_list, h]
  · intro output h
    by_cases hb : (output.stdout.isEmpty && output.stderr.isEmpty) = true
    · simp [device_list, h, hb]
    · simp [device_list, h, hb]

/-- C8 witness: a process error with no captured output aborts. -/
theorem C8_missing_output_abort_witness :
    device_list (fun _ => []) (RunResult.err ⟨none⟩) = none :=
  (C8_missing_output_abort (fun _ => []) ⟨none⟩).1 rfl

/-- C9: when two or more announcements carry unrecognized architecture
strings, the `ArchInvalid` error carries the architecture of the earliest
such announcement in event order — the mapping short-circuits at the first
registry miss. -/
theorem C9_first_bad_arch_short_circuit (events : List Event) (j : DeviceInfo)
    (_hmany : 2 ≤ ((announcements events).filter (fun i => !archOk i)).length)
    (hfirst : (announcements events).find? (fun i => !archOk i) = some j) :
    parse_device_events events = Except.error (DeviceListError.ArchInvalid j.model_arch) := by
  rw [parse_device_events]
  exact collect_err_first [] hfirst

/-- C9 witness: two unrecognized architectures; the error carries the
earliest one. -/
theorem C9_first_bad_arch_short_circuit_witness :
    (2 ≤ ((announcements
        [Event.deviceDetected ⟨"A", "N", "mips", "M"⟩,
         Event.deviceDetected ⟨"B", "N", "sparc", "M"⟩]).filter
          (fun i => !archOk i)).length) ∧
    parse_device_events
        [Event.deviceDetected ⟨"A", "N", "mips", "M"⟩,
         Event.deviceDetected ⟨"B", "N", "sparc", "M"⟩] =
      Except.error (DeviceListError.ArchInvalid ("mips")) :=
  ⟨by decide, C9_first_bad_arch_short_circuit
    [Event.deviceDetected ⟨"A", "N", "mips", "M"⟩,
     Event.deviceDetected ⟨"B", "N", "sparc", "M"⟩]
    ⟨"A", "N", "mips", "M"⟩ (by decide) (by decide)⟩

/-- C10: for completed invocations the result of `device_list` depends
only on the captured standard-out bytes — identical standard-out with
arbitrary standard-error yields equal results. -/
theorem C10_completed_depends_only_on_stdout (parse_list : String → List Event)
    (o₁ o₂ : Output) (h : o₁.stdout = o₂.stdout) :
    device_list parse_list (RunResult.ok o₁) = device_list parse_list (RunResult.ok o₂) := by
  rw [device_list, device_list, parse_device_list, parse_device_list, h]

/-- C10 witness: two completed outputs with the same standard-out but
different standard-error produce the same result. -/
theorem C10_completed_depends_only_on_stdout_witness :
    (Output.mk [65] []).stdout = (Output.mk [65] [72]).stdout ∧
    device_list (fun _ => []) (RunResult.ok (Output.mk [65] [])) =
      device_list (fun _ => []) (RunResult.ok (Output.mk [65] [72])) :=
  ⟨rfl, C10_completed_depends_only_on_stdout (fun _ => []) (Output.mk [65] [])
    (Output.mk [65] [72]) rfl⟩

end CargoMobile
